import Mathlib

/-!
Verification of the zone-occupancy tracking pipeline of the
`guidialert-metrics` repository (an MQTT ingestor writing a Postgres
"Visit Ledger", and a FastAPI read backend).

The embedding below translates, from the source:

* `src/ingestor/main.py`: `parse_topic_site_device`, `normalize_event`,
  `ensure_master_data_site` and `process_event` (the visit state machine
  with its uniqueness-violation retry path);
* `src/backend/main.py`: the per-visit occupancy evaluation of
  `device_history`, the `most_visited` dwell-time aggregation and the
  `transitions` frequency aggregation.

The relational store is modelled as a `Ledger` value (rows as lists);
each SQL statement of the source becomes a function on `Ledger`.  A
transaction is one atomic function application; a rolled-back
transaction leaves the `Ledger` unchanged.  Timestamps are integers
(seconds).  The concurrent interference that the code's
`UniqueViolation` handler reacts to is modelled by a `RaceOracle`
argument: `noConflict` is an interference-free run, `conflictWinner`
is a concurrent worker having committed the first open visit between
our read and our insert, and `conflictPhantom` is the code's "still no
open visit after the retry" ledger-failure path (`raise`).
-/

namespace GuidiAlert

/-- A row of the `devices` table. -/
structure Device where
  siteId : String
  deviceId : String
  deviceName : String
  lastSeen : Int
deriving Repr, DecidableEq

/-- A row of the `zones` table (the ingestion-path columns). -/
structure Zone where
  siteId : String
  zoneId : String
  zoneName : String
deriving Repr, DecidableEq

/-- A row of the `zone_history` table: one Visit of a device to a zone. -/
structure Visit where
  id : Nat
  siteId : String
  deviceId : String
  zoneId : String
  startTime : Int
  endTime : Option Int
deriving Repr, DecidableEq

/-- The Visit Ledger: the relational store owning all persisted state.
`nextId` models the `BIGSERIAL` id sequence of `zone_history`. -/
structure Ledger where
  devices : List Device
  zones : List Zone
  visits : List Visit
  nextId : Nat
deriving Repr, DecidableEq

/-- The upsert of `ensure_master_data_site` on `devices`:
`INSERT ... ON CONFLICT (site_id, device_id) DO UPDATE SET last_seen = EXCLUDED.last_seen`. -/
def upsertDevice (L : Ledger) (s d : String) (t : Int) : Ledger :=
  { L with devices :=
      if L.devices.any (fun x => decide (x.siteId = s ∧ x.deviceId = d)) then
        L.devices.map (fun x =>
          if x.siteId = s ∧ x.deviceId = d then { x with lastSeen := t } else x)
      else
        L.devices ++ [{ siteId := s, deviceId := d, deviceName := d, lastSeen := t }] }

/-- The upsert of `ensure_master_data_site` on `zones`:
`INSERT ... ON CONFLICT (site_id, zone_id) DO NOTHING`. -/
def upsertZone (L : Ledger) (s z : String) : Ledger :=
  { L with zones :=
      if L.zones.any (fun x => decide (x.siteId = s ∧ x.zoneId = z)) then
        L.zones
      else
        L.zones ++ [{ siteId := s, zoneId := z, zoneName := z }] }

/-- `ensure_master_data_site(cur, site_id, device_id, zone_id)`: the two
idempotent upserts run at the start of every transaction (and re-run on
the retry path). -/
def ensureMasterData (L : Ledger) (s d z : String) (t : Int) : Ledger :=
  upsertZone (upsertDevice L s d t) s z

/-- `UPDATE devices SET last_seen = NOW() WHERE site_id = %s AND device_id = %s`
(the same-zone branch of `process_event`). -/
def updateLastSeen (L : Ledger) (s d : String) (t : Int) : Ledger :=
  { L with devices :=
      L.devices.map (fun x =>
        if x.siteId = s ∧ x.deviceId = d then { x with lastSeen := t } else x) }

/-- `UPDATE zone_history SET end_time = NOW() WHERE site_id = %s AND id = %s`. -/
def closeVisit (L : Ledger) (s : String) (i : Nat) (t : Int) : Ledger :=
  { L with visits :=
      L.visits.map (fun v =>
        if v.siteId = s ∧ v.id = i then { v with endTime := some t } else v) }

/-- `INSERT INTO zone_history (site_id, device_id, zone_id, start_time) VALUES (...)`:
a fresh open visit with the next serial id. -/
def insertVisit (L : Ledger) (s d z : String) (t : Int) : Ledger :=
  { L with
    visits := L.visits ++
      [{ id := L.nextId, siteId := s, deviceId := d, zoneId := z,
         startTime := t, endTime := none }],
    nextId := L.nextId + 1 }

/-- The row predicate of the open-visit query:
`site_id = s AND device_id = d AND end_time IS NULL`. -/
def isOpenFor (s d : String) (v : Visit) : Bool :=
  decide (v.siteId = s ∧ v.deviceId = d ∧ v.endTime = none)

/-- All open visits of a device, in row order. -/
def openVisitsFor (L : Ledger) (s d : String) : List Visit :=
  L.visits.filter (isOpenFor s d)

/-- Number of open visits of a device. -/
def openCount (L : Ledger) (s d : String) : Nat :=
  (openVisitsFor L s d).length

/-- `ORDER BY start_time DESC LIMIT 1` over a list of candidate rows:
the row with the maximal `startTime` (ties resolved to the later row,
immaterial under the one-open-visit invariant). -/
def latestOpen : List Visit → Option Visit
  | [] => none
  | v :: vs =>
    match latestOpen vs with
    | none => some v
    | some w => if w.startTime < v.startTime then some v else some w

/-- Errors surfaced by `process_event` (caught and logged by `on_message`). -/
inductive ProcError where
  /-- The `ValueError` of `normalize_event`. -/
  | malformed
  /-- The re-raised `psycopg2.errors.UniqueViolation` of the retry path. -/
  | uniqueViolation
deriving Repr, DecidableEq

/-- Concurrent-environment behaviour of the open-visit creation insert. -/
inductive RaceOracle where
  /-- The insert succeeds (no concurrent competitor). -/
  | noConflict
  /-- A concurrent worker committed first: its transaction upserted the
  master data and inserted an open visit in zone `winnerZone` at
  `winnerTime`; our insert hits the unique
  partial index `uq_open_visit_per_device`. -/
  | conflictWinner (winnerZone : String) (winnerTime : Int)
  /-- The insert reports a uniqueness violation yet the retry re-read
  still finds no open visit: a ledger failure, not a business race. -/
  | conflictPhantom
deriving Repr, DecidableEq

/-- The effect of the winning worker's committed transaction: its
upserts followed by its open-visit insert (the no-open-visit branch of
`process_event` run to a successful commit). -/
def winnerCommit (L : Ledger) (s d wz : String) (wt : Int) : Ledger :=
  insertVisit (ensureMasterData L s d wz wt) s d wz wt

/-- Lines 162–181 of `src/ingestor/main.py`: given the locked open
visit `w`, either the same-zone no-op branch (refresh `last_seen`) or
the zone-change close-and-open branch, followed by the commit. -/
def sameOrChange (L : Ledger) (s d z : String) (t : Int) (w : Visit) : Ledger :=
  if w.zoneId = z then
    updateLastSeen L s d t
  else
    insertVisit (closeVisit L s w.id t) s d z t

/-- `process_event` after normalization: one transaction applying a
normalized (site, device, zone) triple to the ledger at time `now`.
On `Except.error` the transaction was rolled back, so the ledger is
unchanged. -/
def processNormalized (o : RaceOracle) (L : Ledger) (s d z : String) (now : Int) :
    Except ProcError Ledger :=
  let L1 := ensureMasterData L s d z now
  match latestOpen (openVisitsFor L1 s d) with
  | some w => .ok (sameOrChange L1 s d z now w)
  | none =>
    match o with
    | .noConflict => .ok (insertVisit L1 s d z now)
    | .conflictWinner wz wt =>
      -- Our losing transaction is rolled back (its upserts undone); the
      -- winner's commit is applied to the base ledger.  The retry re-runs
      -- the upserts with a fresh cursor and re-reads the open visit.
      let L3 := ensureMasterData (winnerCommit L s d wz wt) s d z now
      match latestOpen (openVisitsFor L3 s d) with
      | some w => .ok (sameOrChange L3 s d z now w)
      | none => .error .uniqueViolation
    | .conflictPhantom => .error .uniqueViolation

/-- The ledger state after one event at the normalized level: a failed
transaction is rolled back and leaves the store untouched. -/
def runNorm (o : RaceOracle) (L : Ledger) (s d z : String) (now : Int) : Ledger :=
  match processNormalized o L s d z now with
  | .ok L2 => L2
  | .error _ => L

/-- One inbound event of a single device's stream: target zone,
processing time and the concurrent-environment behaviour it meets. -/
structure Ev where
  zone : String
  time : Int
  oracle : RaceOracle
deriving Repr, DecidableEq

/-- Process a sequence of events for one device. -/
def runSeq (L : Ledger) (s d : String) (evs : List Ev) : Ledger :=
  evs.foldl (fun acc e => runNorm e.oracle acc s d e.zone e.time) L

/-! ## Event normalization (`normalize_event`) -/

/-- The decoded JSON body fields that `normalize_event` reads
(`payload.get` of the six accepted keys). -/
structure Payload where
  deviceId : Option String
  device_id : Option String
  zoneId : Option String
  zone_id : Option String
  siteId : Option String
  site_id : Option String
deriving Repr, DecidableEq

/-- Python's `a or b` on two optional strings: `a` unless it is `None`
or the empty string. -/
def pyOr : Option String → Option String → Option String
  | some s, b => if s = "" then b else some s
  | none, b => b

/-- Python's `a or b` with a plain-string right operand, as in
`payload_site or topic_site or DEFAULT_SITE_ID`. -/
def pyOrDefault : Option String → String → String
  | some s, b => if s = "" then b else s
  | none, b => b

/-- Python truthiness of an optional string: present and non-empty. -/
def truthy : Option String → Bool
  | some s => decide (s ≠ "")
  | none => false

/-- Split a character list at every slash (the segments of a topic). -/
def splitSlash : List Char → List (List Char)
  | [] => [[]]
  | c :: cs =>
    if c = '/' then [] :: splitSlash cs
    else
      match splitSlash cs with
      | h :: t => (c :: h) :: t
      | [] => [[c]]

/-- `parse_topic_site_device`: match the topic against the anchored pattern
`^site/([^/]+)/device/([^/]+)/location$` — exactly five slash-separated
segments, the fixed words in place, and nonempty site and device segments. -/
def parse_topic_site_device (topic : String) : Option String × Option String :=
  match splitSlash topic.toList with
  | [w1, s, w2, d, w3] =>
    if w1 = "site".toList ∧ w2 = "device".toList ∧ w3 = "location".toList
        ∧ s ≠ [] ∧ d ≠ [] then
      (some (String.mk s), some (String.mk d))
    else (none, none)
  | _ => (none, none)

/-- `normalize_event(payload, topic)`: produce (site, device, zone) with
payload-then-topic fallback, the site falling back further to the
configured default; raise `ValueError` when the device or zone is still
falsy afterwards. -/
def normalize_event (defaultSite : String) (p : Payload) (topic : String) :
    Except ProcError (String × String × String) :=
  let payload_device := pyOr p.deviceId p.device_id
  let payload_zone := pyOr p.zoneId p.zone_id
  let payload_site := pyOr p.siteId p.site_id
  let ts := parse_topic_site_device topic
  let site_id := pyOrDefault (pyOr payload_site ts.1) defaultSite
  let device_id := pyOr payload_device ts.2
  let zone_id := payload_zone
  if truthy device_id && truthy zone_id then
    .ok (site_id, device_id.getD "", zone_id.getD "")
  else
    .error .malformed

/-- `process_event(payload, topic)`: normalize, then run the
transactional state machine.  Normalization happens before any
database access. -/
def process_event (defaultSite : String) (o : RaceOracle) (L : Ledger)
    (p : Payload) (topic : String) (now : Int) : Except ProcError Ledger :=
  match normalize_event defaultSite p topic with
  | .error e => .error e
  | .ok (s, d, z) => processNormalized o L s d z now

/-- The ledger after `process_event`: a raised error means the
transaction rolled back (or was never begun), leaving the store as it
was. -/
def run_event (defaultSite : String) (o : RaceOracle) (L : Ledger)
    (p : Payload) (topic : String) (now : Int) : Ledger :=
  match process_event defaultSite o L p topic now with
  | .ok L2 => L2
  | .error _ => L

/-! ## Read backend (`src/backend/main.py`) -/

/-- Errors of the read API (FastAPI `HTTPException`s). -/
inductive ApiError where
  /-- A 400 validation error (limit or window out of range). -/
  | badRange
  /-- A 404 for an unknown device. -/
  | notFound
deriving Repr, DecidableEq

/-- Primary-key lookup in `devices`. -/
def findDevice (L : Ledger) (s d : String) : Option Device :=
  L.devices.find? (fun x => decide (x.siteId = s ∧ x.deviceId = d))

/-- Primary-key lookup in `zones` (the join target of the read queries). -/
def findZone (L : Ledger) (s z : String) : Option Zone :=
  L.zones.find? (fun x => decide (x.siteId = s ∧ x.zoneId = z))

/-- One item of the device-history response. -/
structure HistoryItem where
  id : Nat
  zoneId : String
  zoneName : String
  startTime : Int
  endTime : Option Int
  effectiveEnd : Option Int
  durationSeconds : Option Int
  isOpen : Bool
  isActive : Bool
deriving Repr, DecidableEq

/-- Lines 481–505 of `src/backend/main.py`: evaluate one visit row at
query time.  `staleCutoff` is `now_utc() - timedelta(minutes=STALE_THRESHOLD_MINUTES)`;
`lastSeen` is the owning device's `last_seen` column. -/
def evalVisit (staleCutoff : Int) (lastSeen : Option Int) (zoneName : String)
    (v : Visit) : HistoryItem :=
  let isOpen := v.endTime.isNone
  let activeEff : Bool × Option Int :=
    if isOpen then
      match lastSeen with
      | some ls => if staleCutoff ≤ ls then (true, none) else (false, some ls)
      | none => (false, v.endTime)
    else
      (false, v.endTime)
  let dur := activeEff.2.map (fun e => max 0 (e - v.startTime))
  { id := v.id, zoneId := v.zoneId, zoneName := zoneName,
    startTime := v.startTime, endTime := v.endTime,
    effectiveEnd := activeEff.2, durationSeconds := dur,
    isOpen := isOpen, isActive := activeEff.1 }

/-- Descending insertion by an integer key (`ORDER BY key DESC`). -/
def insDescBy (key : α → Int) (x : α) : List α → List α
  | [] => [x]
  | y :: ys => if key y ≤ key x then x :: y :: ys else y :: insDescBy key x ys

/-- Descending sort by an integer key. -/
def sortDescBy (key : α → Int) : List α → List α
  | [] => []
  | x :: xs => insDescBy key x (sortDescBy key xs)

/-- Ascending insertion by an integer key (`ORDER BY key` ascending). -/
def insAscBy (key : α → Int) (x : α) : List α → List α
  | [] => [x]
  | y :: ys => if key x ≤ key y then x :: y :: ys else y :: insAscBy key x ys

/-- Ascending sort by an integer key. -/
def sortAscBy (key : α → Int) : List α → List α
  | [] => []
  | x :: xs => insAscBy key x (sortAscBy key xs)

/-- The visit rows of the device-history query:
`WHERE site_id = s AND device_id = d ORDER BY start_time DESC LIMIT limit`. -/
def deviceVisitRows (L : Ledger) (s d : String) (limit : Nat) : List Visit :=
  (sortDescBy (fun v => v.startTime)
    (L.visits.filter (fun v => decide (v.siteId = s ∧ v.deviceId = d)))).take limit

/-- The device record of the device-history response. -/
structure DeviceOut where
  deviceId : String
  deviceName : String
  lastSeen : Int
  staleThresholdMinutes : Nat
deriving Repr, DecidableEq

/-- The device-history response body. -/
structure DHOut where
  device : DeviceOut
  items : List HistoryItem
deriving Repr, DecidableEq

/-- `GET /device/{device_id}/history`: validate the limit, look up the
device, read its visit rows joined to `zones`, and evaluate each row.
The endpoint only reads, so it returns the (unchanged) ledger it was
given, making the frame effect explicit. -/
def device_history (staleMin : Nat) (L : Ledger) (s d : String) (limit : Nat)
    (now : Int) : Except ApiError DHOut × Ledger :=
  if limit = 0 ∨ 2000 < limit then (.error .badRange, L)
  else
    match findDevice L s d with
    | none => (.error .notFound, L)
    | some dev =>
      let staleCutoff := now - 60 * (staleMin : Int)
      let items := (deviceVisitRows L s d limit).filterMap (fun v =>
        (findZone L s v.zoneId).map (fun zr =>
          evalVisit staleCutoff (some dev.lastSeen) zr.zoneName v))
      (.ok { device := { deviceId := dev.deviceId, deviceName := dev.deviceName,
                         lastSeen := dev.lastSeen, staleThresholdMinutes := staleMin },
             items := items }, L)

/-- Modelled from the spec: the `duration` column of `zone_history`
summed by the dwell-time query.  The column is defined in the database
schema, which is not under `src/`; per spec §4.4 the duration of a
closed visit is `max(0, endTime - startTime)` seconds. -/
def durationSecs (v : Visit) : Int :=
  match v.endTime with
  | some e => max 0 (e - v.startTime)
  | none => 0

/-- The row filter of the dwell-time query:
`site_id = s AND start_time > NOW() - interval hours AND end_time IS NOT NULL`. -/
def mvQualifies (s : String) (now : Int) (hours : Nat) (v : Visit) : Bool :=
  decide (v.siteId = s ∧ now - 3600 * (hours : Int) < v.startTime ∧ v.endTime ≠ none)

/-- The joined rows of the dwell-time query (the inner join to `zones`
drops a visit whose zone row is absent). -/
def mvVisits (L : Ledger) (s : String) (now : Int) (hours : Nat) : List Visit :=
  L.visits.filter (fun v => mvQualifies s now hours v && (findZone L s v.zoneId).isSome)

/-- The distinct zone ids of the grouped dwell-time rows, in
first-appearance order. -/
def mvZones (L : Ledger) (s : String) (now : Int) (hours : Nat) : List String :=
  ((mvVisits L s now hours).map (fun v => v.zoneId)).dedup

/-- The per-zone dwell total: `SUM(EXTRACT(EPOCH FROM zh.duration))`
over the group's rows. -/
def mvTotal (L : Ledger) (s : String) (now : Int) (hours : Nat) (z : String) : Int :=
  (((mvVisits L s now hours).filter (fun v => decide (v.zoneId = z))).map durationSecs).sum

/-- The display name the join attaches to a grouped zone id. -/
def zoneNameOf (L : Ledger) (s z : String) : String :=
  match findZone L s z with
  | some zr => zr.zoneName
  | none => z

/-- One row of the most-visited response. -/
structure MVRow where
  zoneId : String
  zoneName : String
  totalSeconds : Int
deriving Repr, DecidableEq

/-- `GET /metrics/most-visited`: validate the window, then per zone sum
the durations of the closed visits started inside the trailing window,
sorted descending by total.  (`GROUP BY zh.zone_id, z.zone_name`
coincides with grouping by zone id because `(site_id, zone_id)` is the
primary key of `zones`.) -/
def most_visited (L : Ledger) (s : String) (now : Int) (hours : Nat) :
    Except ApiError (List MVRow) :=
  if hours = 0 ∨ 720 < hours then .error .badRange
  else
    .ok (sortDescBy (fun r => r.totalSeconds)
      ((mvZones L s now hours).map (fun z =>
        { zoneId := z, zoneName := zoneNameOf L s z,
          totalSeconds := mvTotal L s now hours z })))

/-- Consecutive pairs of a list: the `LEAD(...) OVER (... ORDER BY ...)`
pairs with a non-null lead. -/
def consecPairs : List String → List (String × String)
  | a :: b :: rest => (a, b) :: consecPairs (b :: rest)
  | _ => []

/-- The distinct device ids of a site's visit rows (the window-function
partitions). -/
def deviceIdsOf (L : Ledger) (s : String) : List String :=
  ((L.visits.filter (fun v => decide (v.siteId = s))).map (fun v => v.deviceId)).dedup

/-- A device's visit rows in `start_time` order. -/
def deviceVisitsAsc (L : Ledger) (s d : String) : List Visit :=
  sortAscBy (fun v => v.startTime)
    (L.visits.filter (fun v => decide (v.siteId = s ∧ v.deviceId = d)))

/-- All (current_zone, next_zone) transition pairs of a site: for each
device, the consecutive pairs of its start-time-ordered visits. -/
def transPairs (L : Ledger) (s : String) : List (String × String) :=
  (deviceIdsOf L s).flatMap (fun d =>
    consecPairs ((deviceVisitsAsc L s d).map (fun v => v.zoneId)))

/-- One row of the transitions response. -/
structure TRow where
  currentZone : String
  nextZone : String
  frequency : Nat
deriving Repr, DecidableEq

/-- `GET /metrics/transitions`: validate the limit, count each ordered
transition pair across the site's devices, and return the rows sorted
descending by frequency, capped at `limit`.  The query is scoped by
site only; it takes no time-window parameter. -/
def transitions (L : Ledger) (s : String) (limit : Nat) :
    Except ApiError (List TRow) :=
  if limit = 0 ∨ 500 < limit then .error .badRange
  else
    let ps := transPairs L s
    .ok ((sortDescBy (fun r => (r.frequency : Int))
      (ps.dedup.map (fun q =>
        { currentZone := q.1, nextZone := q.2, frequency := ps.count q }))).take limit)

/-- Modelled from the spec: the transition-frequencies query as §4.5
words it, "scoped by site and an optional trailing time window" — the
same aggregation but restricted to visits whose `start_time` lies
inside the trailing window when one is supplied.  Stated only to be
compared with `transitions`, which the source scopes by site alone. -/
def transitionsWindowedSpec (L : Ledger) (s : String) (limit : Nat)
    (window : Option Int) (now : Int) : Except ApiError (List TRow) :=
  let inWin : Visit → Bool := fun v =>
    match window with
    | some w => decide (now - w < v.startTime)
    | none => true
  let Lw : Ledger := { L with visits := L.visits.filter inWin }
  transitions Lw s limit

/-- A ledger whose only transition comes from visits far older than any
reasonable trailing window (used to compare `transitions` with the
spec's windowed wording). -/
def windowCexLedger : Ledger :=
  { devices := [], zones := [],
    visits := [{ id := 0, siteId := "s1", deviceId := "d1", zoneId := "A",
                 startTime := 0, endTime := some 10 },
               { id := 1, siteId := "s1", deviceId := "d1", zoneId := "B",
                 startTime := 10, endTime := none }], nextId := 2 }

/-! ## Basic facts about the ledger operations -/

theorem visits_upsertDevice (L : Ledger) (s d : String) (t : Int) :
    (upsertDevice L s d t).visits = L.visits := rfl

theorem visits_upsertZone (L : Ledger) (s z : String) :
    (upsertZone L s z).visits = L.visits := rfl

theorem visits_ensureMasterData (L : Ledger) (s d z : String) (t : Int) :
    (ensureMasterData L s d z t).visits = L.visits := rfl

theorem visits_updateLastSeen (L : Ledger) (s d : String) (t : Int) :
    (updateLastSeen L s d t).visits = L.visits := rfl

theorem nextId_ensureMasterData (L : Ledger) (s d z : String) (t : Int) :
    (ensureMasterData L s d z t).nextId = L.nextId := rfl

theorem nextId_closeVisit (L : Ledger) (s : String) (i : Nat) (t : Int) :
    (closeVisit L s i t).nextId = L.nextId := rfl

theorem openVisitsFor_ensureMasterData (L : Ledger) (s d z s2 d2 : String) (t : Int) :
    openVisitsFor (ensureMasterData L s d z t) s2 d2 = openVisitsFor L s2 d2 := rfl

theorem openVisitsFor_updateLastSeen (L : Ledger) (s d s2 d2 : String) (t : Int) :
    openVisitsFor (updateLastSeen L s d t) s2 d2 = openVisitsFor L s2 d2 := rfl

theorem isOpenFor_iff {s d : String} {v : Visit} :
    isOpenFor s d v = true ↔ v.siteId = s ∧ v.deviceId = d ∧ v.endTime = none := by
  simp [isOpenFor]

theorem openVisitsFor_insertVisit_self (L : Ledger) (s d z : String) (t : Int) :
    openVisitsFor (insertVisit L s d z t) s d =
      openVisitsFor L s d ++
        [{ id := L.nextId, siteId := s, deviceId := d, zoneId := z,
           startTime := t, endTime := none }] := by
  simp [openVisitsFor, insertVisit, List.filter_append, isOpenFor]

theorem openVisitsFor_insertVisit_other (L : Ledger) (s d z s2 d2 : String) (t : Int)
    (h : ¬(s2 = s ∧ d2 = d)) :
    openVisitsFor (insertVisit L s d z t) s2 d2 = openVisitsFor L s2 d2 := by
  simp only [openVisitsFor, insertVisit, List.filter_append]
  have : isOpenFor s2 d2
      { id := L.nextId, siteId := s, deviceId := d, zoneId := z,
        startTime := t, endTime := none } = false := by
    simp only [isOpenFor, decide_eq_false_iff_not]
    rintro ⟨h1, h2, -⟩
    exact h ⟨h1.symm, h2.symm⟩
  simp [this]

theorem length_filter_map_le {α : Type} {p q : α → Bool} (f : α → α) (l : List α)
    (h : ∀ x, p (f x) = true → q x = true) :
    (List.filter p (l.map f)).length ≤ (List.filter q l).length := by
  induction l with
  | nil => simp
  | cons a l ih =>
    simp only [List.map_cons, List.filter_cons]
    by_cases hp : p (f a) = true
    · rw [if_pos hp, if_pos (h a hp)]
      simpa using ih
    · rw [if_neg hp]
      by_cases hq : q a = true
      · rw [if_pos hq]
        exact ih.trans (Nat.le_succ _)
      · rw [if_neg hq]
        exact ih

theorem openCount_closeVisit_le (L : Ledger) (s : String) (i : Nat) (t : Int)
    (s2 d2 : String) :
    openCount (closeVisit L s i t) s2 d2 ≤ openCount L s2 d2 := by
  unfold openCount openVisitsFor closeVisit
  apply length_filter_map_le
  intro x hx
  by_cases hc : x.siteId = s ∧ x.id = i
  · rw [if_pos hc] at hx
    rcases isOpenFor_iff.1 hx with ⟨-, -, hnone⟩
    simp at hnone
  · rwa [if_neg hc] at hx

theorem openVisitsFor_closeVisit_exact (L : Ledger) (s d : String) (v : Visit) (t : Int)
    (h : openVisitsFor L s d = [v]) :
    openVisitsFor (closeVisit L s v.id t) s d = [] := by
  have hmem : ∀ x ∈ L.visits, isOpenFor s d x = true → x = v := by
    intro x hx hpx
    have hx2 : x ∈ openVisitsFor L s d := List.mem_filter.2 ⟨hx, hpx⟩
    rw [h] at hx2
    simpa using hx2
  have hvsite : v.siteId = s := by
    have hv : v ∈ openVisitsFor L s d := by rw [h]; simp
    exact (isOpenFor_iff.1 (List.mem_filter.1 hv).2).1
  unfold openVisitsFor closeVisit
  rw [List.filter_eq_nil_iff]
  intro a ha
  rcases List.mem_map.1 ha with ⟨x, hx, rfl⟩
  by_cases hc : x.siteId = s ∧ x.id = v.id
  · rw [if_pos hc]
    simp [isOpenFor]
  · rw [if_neg hc]
    intro hopen
    exact hc (by rw [hmem x hx hopen]; exact ⟨hvsite, rfl⟩)

theorem latestOpen_cons_isSome (v : Visit) (vs : List Visit) :
    (latestOpen (v :: vs)).isSome = true := by
  simp only [latestOpen]
  cases latestOpen vs with
  | none => rfl
  | some w =>
    show (if w.startTime < v.startTime then some v else some w).isSome = true
    split <;> rfl

theorem latestOpen_eq_none {l : List Visit} : latestOpen l = none ↔ l = [] := by
  cases l with
  | nil => simp [latestOpen]
  | cons v vs =>
    constructor
    · intro h
      have := latestOpen_cons_isSome v vs
      rw [h] at this
      simp at this
    · intro h
      simp at h

theorem latestOpen_mem {l : List Visit} {w : Visit} (h : latestOpen l = some w) :
    w ∈ l := by
  induction l with
  | nil => simp [latestOpen] at h
  | cons v vs ih =>
    simp only [latestOpen] at h
    cases hl : latestOpen vs with
    | none =>
      rw [hl] at h
      simp only [Option.some.injEq] at h
      simp [h.symm]
    | some u =>
      rw [hl] at h
      change (if u.startTime < v.startTime then some v else some u) = some w at h
      split at h
      · simp only [Option.some.injEq] at h
        simp [h.symm]
      · simp only [Option.some.injEq] at h
        exact List.mem_cons_of_mem v (ih (h ▸ hl))

theorem latestOpen_singleton (v : Visit) : latestOpen [v] = some v := rfl

/-! ## The insertion sorts of the read queries -/

theorem mem_insDescBy {α : Type} {key : α → Int} {x a : α} {l : List α} :
    a ∈ insDescBy key x l ↔ a = x ∨ a ∈ l := by
  induction l with
  | nil => simp [insDescBy]
  | cons y ys ih =>
    simp only [insDescBy]
    split
    · simp [List.mem_cons]
    · simp only [List.mem_cons, ih]
      tauto

theorem insDescBy_perm {α : Type} (key : α → Int) (x : α) (l : List α) :
    (insDescBy key x l).Perm (x :: l) := by
  induction l with
  | nil => exact List.Perm.refl _
  | cons y ys ih =>
    simp only [insDescBy]
    split
    · exact List.Perm.refl _
    · exact (List.Perm.cons y ih).trans (List.Perm.swap x y ys)

theorem sortDescBy_perm {α : Type} (key : α → Int) (l : List α) :
    (sortDescBy key l).Perm l := by
  induction l with
  | nil => exact List.Perm.refl _
  | cons x xs ih =>
    exact (insDescBy_perm key x _).trans (List.Perm.cons x ih)

theorem sorted_insDescBy {α : Type} {key : α → Int} {x : α} {l : List α}
    (h : l.Pairwise (fun a b => key b ≤ key a)) :
    (insDescBy key x l).Pairwise (fun a b => key b ≤ key a) := by
  induction l with
  | nil => simp [insDescBy]
  | cons y ys ih =>
    rcases List.pairwise_cons.1 h with ⟨hy, hys⟩
    simp only [insDescBy]
    split
    · refine List.pairwise_cons.2 ⟨?_, h⟩
      intro b hb
      rcases List.mem_cons.1 hb with rfl | hb
      · assumption
      · exact le_trans (hy b hb) (by assumption)
    · refine List.pairwise_cons.2 ⟨?_, ih hys⟩
      intro b hb
      rcases mem_insDescBy.1 hb with rfl | hb
      · exact le_of_lt (lt_of_not_ge (by assumption))
      · exact hy b hb

theorem sorted_sortDescBy {α : Type} (key : α → Int) (l : List α) :
    (sortDescBy key l).Pairwise (fun a b => key b ≤ key a) := by
  induction l with
  | nil => simp [sortDescBy]
  | cons x xs ih => exact sorted_insDescBy ih

/-! ## The open-visit invariant of the state machine -/

theorem openVisits_eq_singleton_of_latest {L : Ledger} {s d : String} {w : Visit}
    (h : latestOpen (openVisitsFor L s d) = some w) (hle : openCount L s d ≤ 1) :
    openVisitsFor L s d = [w] := by
  have hmem := latestOpen_mem h
  have hne : openVisitsFor L s d ≠ [] := by
    intro hnil
    rw [hnil] at h
    simp [latestOpen] at h
  have hlen : (openVisitsFor L s d).length = 1 := by
    rcases hx : openVisitsFor L s d with _ | ⟨a, l2⟩
    · exact absurd hx hne
    · have := hle
      unfold openCount at this
      rw [hx] at this
      simp only [List.length_cons] at this
      simp [Nat.le_antisymm this (Nat.succ_le_succ (Nat.zero_le _))]
  obtain ⟨a, ha⟩ := List.length_eq_one.1 hlen
  rw [ha] at hmem
  simp only [List.mem_singleton] at hmem
  rw [ha, hmem]

theorem openVisitsFor_sameOrChange (L1 : Ledger) (s d z : String) (now : Int) (w : Visit)
    (hw : openVisitsFor L1 s d = [w]) :
    openVisitsFor (sameOrChange L1 s d z now w) s d =
      if w.zoneId = z then [w]
      else [{ id := L1.nextId, siteId := s, deviceId := d, zoneId := z,
              startTime := now, endTime := none }] := by
  unfold sameOrChange
  split
  · rw [openVisitsFor_updateLastSeen, hw]
  · rw [openVisitsFor_insertVisit_self, openVisitsFor_closeVisit_exact L1 s d w now hw]
    rfl

theorem openCount_sameOrChange_other (L1 : Ledger) (s d z : String) (now : Int)
    (w : Visit) (s2 d2 : String) (hne : ¬(s2 = s ∧ d2 = d)) :
    openCount (sameOrChange L1 s d z now w) s2 d2 ≤ openCount L1 s2 d2 := by
  unfold sameOrChange
  split
  · unfold openCount
    rw [openVisitsFor_updateLastSeen]
  · unfold openCount
    rw [openVisitsFor_insertVisit_other _ _ _ _ _ _ _ hne]
    exact openCount_closeVisit_le L1 s w.id now s2 d2

theorem openVisitsFor_retry (L : Ledger) (s d z wz : String) (wt now : Int)
    (h : openVisitsFor L s d = []) :
    openVisitsFor (ensureMasterData (winnerCommit L s d wz wt) s d z now) s d =
      [{ id := L.nextId, siteId := s, deviceId := d, zoneId := wz,
         startTime := wt, endTime := none }] := by
  rw [openVisitsFor_ensureMasterData]
  unfold winnerCommit
  rw [openVisitsFor_insertVisit_self, openVisitsFor_ensureMasterData, h]
  rfl

theorem processNormalized_ok_openVisits (o : RaceOracle) (L : Ledger) (s d z : String)
    (now : Int) (L2 : Ledger) (hok : processNormalized o L s d z now = .ok L2)
    (hle : openCount L s d ≤ 1) : openCount L2 s d = 1 := by
  simp only [processNormalized] at hok
  split at hok
  · -- an open visit was found and locked
    rename_i w heq
    rw [openVisitsFor_ensureMasterData] at heq
    have hw : openVisitsFor L s d = [w] := openVisits_eq_singleton_of_latest heq hle
    have hw1 : openVisitsFor (ensureMasterData L s d z now) s d = [w] := by
      rw [openVisitsFor_ensureMasterData]; exact hw
    have := openVisitsFor_sameOrChange (ensureMasterData L s d z now) s d z now w hw1
    cases hok
    unfold openCount
    rw [this]
    split <;> rfl
  · rename_i heq
    rw [openVisitsFor_ensureMasterData] at heq
    have h0 : openVisitsFor L s d = [] := latestOpen_eq_none.1 heq
    split at hok
    · -- no conflict: plain insert
      cases hok
      unfold openCount
      rw [openVisitsFor_insertVisit_self, openVisitsFor_ensureMasterData, h0]
      rfl
    · -- creation race lost: retry against the winner's open visit
      rename_i wz wt
      have h3 := openVisitsFor_retry L s d z wz wt now h0
      split at hok
      · rename_i w2 heq2
        rw [h3, latestOpen_singleton] at heq2
        cases heq2
        have := openVisitsFor_sameOrChange _ s d z now _ h3
        cases hok
        unfold openCount
        rw [this]
        split <;> rfl
      · rename_i heq2
        rw [h3, latestOpen_singleton] at heq2
        cases heq2
    · cases hok

theorem processNormalized_other_le (o : RaceOracle) (L : Ledger) (s d z : String)
    (now : Int) (L2 : Ledger) (s2 d2 : String)
    (hok : processNormalized o L s d z now = .ok L2) (hne : ¬(s2 = s ∧ d2 = d)) :
    openCount L2 s2 d2 ≤ openCount L s2 d2 := by
  simp only [processNormalized] at hok
  split at hok
  · rename_i w heq
    cases hok
    calc openCount (sameOrChange (ensureMasterData L s d z now) s d z now w) s2 d2
        ≤ openCount (ensureMasterData L s d z now) s2 d2 :=
          openCount_sameOrChange_other _ s d z now w s2 d2 hne
      _ = openCount L s2 d2 := by unfold openCount; rw [openVisitsFor_ensureMasterData]
  · split at hok
    · cases hok
      unfold openCount
      rw [openVisitsFor_insertVisit_other _ _ _ _ _ _ _ hne,
        openVisitsFor_ensureMasterData]
    · rename_i wz wt
      split at hok
      · rename_i w2 heq2
        cases hok
        calc openCount (sameOrChange _ s d z now w2) s2 d2
            ≤ openCount (ensureMasterData (winnerCommit L s d wz wt) s d z now) s2 d2 :=
              openCount_sameOrChange_other _ s d z now w2 s2 d2 hne
          _ = openCount (winnerCommit L s d wz wt) s2 d2 := by
              unfold openCount; rw [openVisitsFor_ensureMasterData]
          _ = openCount L s2 d2 := by
              unfold openCount winnerCommit
              rw [openVisitsFor_insertVisit_other _ _ _ _ _ _ _ hne,
                openVisitsFor_ensureMasterData]
      · cases hok
    · cases hok

theorem processNormalized_isOk (o : RaceOracle) (L : Ledger) (s d z : String) (now : Int)
    (h : o ≠ RaceOracle.conflictPhantom) :
    ∃ L2, processNormalized o L s d z now = .ok L2 := by
  cases hpe : processNormalized o L s d z now with
  | ok L2 => exact ⟨L2, rfl⟩
  | error e =>
    exfalso
    simp only [processNormalized] at hpe
    split at hpe
    · cases hpe
    · rename_i heq
      rw [openVisitsFor_ensureMasterData] at heq
      have h0 : openVisitsFor L s d = [] := latestOpen_eq_none.1 heq
      split at hpe
      · cases hpe
      · rename_i wz wt
        have h3 := openVisitsFor_retry L s d z wz wt now h0
        split at hpe
        · cases hpe
        · rename_i heq2
          rw [h3, latestOpen_singleton] at heq2
          cases heq2
      · exact h rfl

theorem openCount_runNorm_le (o : RaceOracle) (L : Ledger) (s d z : String) (now : Int)
    (s2 d2 : String) (h : openCount L s2 d2 ≤ 1) :
    openCount (runNorm o L s d z now) s2 d2 ≤ 1 := by
  unfold runNorm
  cases hok : processNormalized o L s d z now with
  | error e => exact h
  | ok L2 =>
    by_cases hp : s2 = s ∧ d2 = d
    · obtain ⟨rfl, rfl⟩ := hp
      rw [processNormalized_ok_openVisits o L s2 d2 z now L2 hok h]
    · exact le_trans (processNormalized_other_le o L s d z now L2 s2 d2 hok hp) h

theorem runSeq_openCount_one (s d : String) (evs : List Ev) :
    ∀ L : Ledger, openCount L s d = 1 →
      (∀ e ∈ evs, e.oracle ≠ RaceOracle.conflictPhantom) →
      openCount (runSeq L s d evs) s d = 1 := by
  induction evs with
  | nil => intro L h _; exact h
  | cons e es ih =>
    intro L h hno
    have hstep : openCount (runNorm e.oracle L s d e.zone e.time) s d = 1 := by
      obtain ⟨L2, hok⟩ :=
        processNormalized_isOk e.oracle L s d e.zone e.time (hno e (by simp))
      unfold runNorm
      rw [hok]
      exact processNormalized_ok_openVisits e.oracle L s d e.zone e.time L2 hok
        (le_of_eq h)
    exact ih _ hstep (fun e2 he2 => hno e2 (List.mem_cons_of_mem e he2))

/-- C1: for every (siteId, deviceId) at most one Visit has an absent endTime at any
instant: the bound is preserved by every branch of the event-processing operation
(every oracle and every zone comparison), a successfully committed event always
leaves exactly one open Visit for its device, and after processing any nonempty
sequence of events for a single device — with no ledger failure, the only case the
code fails an event — exactly one Visit has an absent endTime, zero occurring only
before the device's first event. -/
theorem open_visit_invariant :
    (∀ (o : RaceOracle) (L : Ledger) (s d z : String) (now : Int) (s2 d2 : String),
        openCount L s2 d2 ≤ 1 → openCount (runNorm o L s d z now) s2 d2 ≤ 1)
    ∧ (∀ (o : RaceOracle) (L : Ledger) (s d z : String) (now : Int) (L2 : Ledger),
        processNormalized o L s d z now = .ok L2 → openCount L s d ≤ 1 →
        openCount L2 s d = 1)
    ∧ (∀ (L : Ledger) (s d : String) (evs : List Ev),
        openCount L s d = 0 →
        (∀ e ∈ evs, e.oracle ≠ RaceOracle.conflictPhantom) → evs ≠ [] →
        openCount (runSeq L s d evs) s d = 1) := by
  refine ⟨openCount_runNorm_le, processNormalized_ok_openVisits, ?_⟩
  intro L s d evs h0 hno hne
  cases evs with
  | nil => exact absurd rfl hne
  | cons e es =>
    have hstep : openCount (runNorm e.oracle L s d e.zone e.time) s d = 1 := by
      obtain ⟨L2, hok⟩ :=
        processNormalized_isOk e.oracle L s d e.zone e.time (hno e (by simp))
      unfold runNorm
      rw [hok]
      exact processNormalized_ok_openVisits e.oracle L s d e.zone e.time L2 hok
        (by rw [h0]; exact Nat.zero_le 1)
    exact runSeq_openCount_one s d es _ hstep
      (fun e2 he2 => hno e2 (List.mem_cons_of_mem e he2))

/-- Concrete instance of the C1 invariant: an empty ledger processed through a
create, a zone change and a lost creation race ends with exactly one open visit. -/
theorem open_visit_invariant_witness :
    openCount (runSeq { devices := [], zones := [], visits := [], nextId := 0 }
      "site-001" "dev-1"
      [{ zone := "A", time := 0, oracle := RaceOracle.noConflict },
       { zone := "B", time := 10, oracle := RaceOracle.noConflict },
       { zone := "B", time := 20, oracle := RaceOracle.conflictWinner "A" 15 }])
      "site-001" "dev-1" = 1 :=
  open_visit_invariant.2.2 _ "site-001" "dev-1" _ (by decide) (by decide) (by decide)

/-- C2: when a device's open Visit is in a different zone, processing the event
commits — in one atomic transaction (one application of the step function) — a
state in which that Visit's endTime is set to now, exactly one new Visit row was
added, the new Visit is open with startTime = now in the new zone, and the device
has exactly one open Visit, so no state another transaction can observe has zero
or two open Visits for the device. -/
theorem zone_change_close_open (o : RaceOracle) (L : Ledger) (s d z : String)
    (now : Int) (v : Visit) (hv : openVisitsFor L s d = [v]) (hz : v.zoneId ≠ z) :
    processNormalized o L s d z now =
      .ok (insertVisit (closeVisit (ensureMasterData L s d z now) s v.id now) s d z now)
    ∧ openVisitsFor (runNorm o L s d z now) s d =
        [{ id := L.nextId, siteId := s, deviceId := d, zoneId := z,
           startTime := now, endTime := none }]
    ∧ (runNorm o L s d z now).visits.length = L.visits.length + 1
    ∧ ∃ v2 ∈ (runNorm o L s d z now).visits,
        v2.id = v.id ∧ v2.zoneId = v.zoneId ∧ v2.startTime = v.startTime ∧
        v2.endTime = some now := by
  have hv1 : openVisitsFor (ensureMasterData L s d z now) s d = [v] := by
    rw [openVisitsFor_ensureMasterData]
    exact hv
  have hlat : latestOpen (openVisitsFor (ensureMasterData L s d z now) s d) = some v := by
    rw [hv1, latestOpen_singleton]
  have hproc : processNormalized o L s d z now =
      .ok (insertVisit (closeVisit (ensureMasterData L s d z now) s v.id now) s d z now) := by
    simp only [processNormalized]
    split
    · rename_i w heq
      rw [hlat] at heq
      cases heq
      unfold sameOrChange
      rw [if_neg hz]
    · rename_i heq
      rw [hlat] at heq
      cases heq
  have hrun : runNorm o L s d z now =
      insertVisit (closeVisit (ensureMasterData L s d z now) s v.id now) s d z now := by
    unfold runNorm
    rw [hproc]
  have hvmem := List.mem_filter.1 (show v ∈ openVisitsFor L s d by rw [hv]; simp)
  have hvsite : v.siteId = s := (isOpenFor_iff.1 hvmem.2).1
  refine ⟨hproc, ?_, ?_, ?_⟩
  · rw [hrun, openVisitsFor_insertVisit_self,
      openVisitsFor_closeVisit_exact _ s d v now hv1]
    rfl
  · rw [hrun]
    simp only [insertVisit, closeVisit, visits_ensureMasterData, List.length_append,
      List.length_map, List.length_singleton]
  · refine ⟨{ v with endTime := some now }, ?_, rfl, rfl, rfl, rfl⟩
    rw [hrun]
    simp only [insertVisit, closeVisit, visits_ensureMasterData]
    apply List.mem_append_left
    refine List.mem_map.2 ⟨v, hvmem.1, ?_⟩
    rw [if_pos ⟨hvsite, rfl⟩]

/-- Concrete instance of C2: a zone change from A to B closes the open A-visit
and leaves exactly one open visit, the new B-visit started at the event time. -/
theorem zone_change_close_open_witness :
    openVisitsFor (runNorm RaceOracle.noConflict
      { devices := [], zones := [],
        visits := [{ id := 0, siteId := "s1", deviceId := "d1", zoneId := "A",
                     startTime := 0, endTime := none }], nextId := 1 }
      "s1" "d1" "B" 10) "s1" "d1" =
      [{ id := 1, siteId := "s1", deviceId := "d1", zoneId := "B",
         startTime := 10, endTime := none }] :=
  (zone_change_close_open RaceOracle.noConflict
    { devices := [], zones := [],
      visits := [{ id := 0, siteId := "s1", deviceId := "d1", zoneId := "A",
                   startTime := 0, endTime := none }], nextId := 1 }
    "s1" "d1" "B" 10
    { id := 0, siteId := "s1", deviceId := "d1", zoneId := "A",
      startTime := 0, endTime := none }
    (by decide) (by decide)).2.1

/-- C3: when the open-visit creation insert loses the uniqueness race, the losing
transaction is rolled back, the upserts are re-run and the open visit re-read
exactly once (the single retry built into the step); if the winner's zone equals
the event's zone the event converges to the same-zone no-op branch (the winner's
visit remains the only open one and no row is added beyond the winner's), if it
differs the event converges to the close-and-open branch (the winner's visit is
closed at now and a new open visit for the event zone is created), and if the open
visit is still absent after the single retry the event fails with a surfaced
`UniqueViolation` error rather than being silently dropped, the ledger rolled back
unchanged. -/
theorem creation_race_retry (L : Ledger) (s d z wz : String) (wt now : Int)
    (h : openVisitsFor L s d = []) :
    (wz = z →
      processNormalized (RaceOracle.conflictWinner wz wt) L s d z now =
        .ok (updateLastSeen (ensureMasterData (winnerCommit L s d wz wt) s d z now)
              s d now)
      ∧ openVisitsFor (runNorm (RaceOracle.conflictWinner wz wt) L s d z now) s d =
          [{ id := L.nextId, siteId := s, deviceId := d, zoneId := wz,
             startTime := wt, endTime := none }]
      ∧ (runNorm (RaceOracle.conflictWinner wz wt) L s d z now).visits.length =
          L.visits.length + 1)
    ∧ (wz ≠ z →
      processNormalized (RaceOracle.conflictWinner wz wt) L s d z now =
        .ok (insertVisit
              (closeVisit (ensureMasterData (winnerCommit L s d wz wt) s d z now)
                s L.nextId now) s d z now)
      ∧ openVisitsFor (runNorm (RaceOracle.conflictWinner wz wt) L s d z now) s d =
          [{ id := L.nextId + 1, siteId := s, deviceId := d, zoneId := z,
             startTime := now, endTime := none }]
      ∧ ∃ v2 ∈ (runNorm (RaceOracle.conflictWinner wz wt) L s d z now).visits,
          v2.id = L.nextId ∧ v2.zoneId = wz ∧ v2.startTime = wt ∧
          v2.endTime = some now)
    ∧ (processNormalized RaceOracle.conflictPhantom L s d z now =
        .error .uniqueViolation
      ∧ runNorm RaceOracle.conflictPhantom L s d z now = L) := by
  have h3 := openVisitsFor_retry L s d z wz wt now h
  have hkey : processNormalized (RaceOracle.conflictWinner wz wt) L s d z now =
      .ok (sameOrChange (ensureMasterData (winnerCommit L s d wz wt) s d z now)
        s d z now
        { id := L.nextId, siteId := s, deviceId := d, zoneId := wz,
          startTime := wt, endTime := none }) := by
    simp only [processNormalized]
    split
    · rename_i w heq
      rw [openVisitsFor_ensureMasterData, h] at heq
      simp [latestOpen] at heq
    · split
      · rename_i w2 heq2
        rw [h3, latestOpen_singleton] at heq2
        cases heq2
        rfl
      · rename_i heq2
        rw [h3, latestOpen_singleton] at heq2
        cases heq2
  have hwvmem := List.mem_filter.1
    (show ({ id := L.nextId, siteId := s, deviceId := d, zoneId := wz,
             startTime := wt, endTime := none } : Visit)
        ∈ openVisitsFor (ensureMasterData (winnerCommit L s d wz wt) s d z now) s d by
      rw [h3]; simp)
  refine ⟨?_, ?_, ?_⟩
  · intro hwz
    have hproc : processNormalized (RaceOracle.conflictWinner wz wt) L s d z now =
        .ok (updateLastSeen (ensureMasterData (winnerCommit L s d wz wt) s d z now)
          s d now) := by
      rw [hkey]
      unfold sameOrChange
      rw [if_pos hwz]
    have hrun : runNorm (RaceOracle.conflictWinner wz wt) L s d z now =
        updateLastSeen (ensureMasterData (winnerCommit L s d wz wt) s d z now)
          s d now := by
      unfold runNorm
      rw [hproc]
    refine ⟨hproc, ?_, ?_⟩
    · rw [hrun, openVisitsFor_updateLastSeen, h3]
    · rw [hrun]
      simp only [visits_updateLastSeen, visits_ensureMasterData, winnerCommit,
        insertVisit, List.length_append, List.length_singleton]
  · intro hwz
    have hproc : processNormalized (RaceOracle.conflictWinner wz wt) L s d z now =
        .ok (insertVisit
          (closeVisit (ensureMasterData (winnerCommit L s d wz wt) s d z now)
            s L.nextId now) s d z now) := by
      rw [hkey]
      unfold sameOrChange
      rw [if_neg hwz]
    have hrun : runNorm (RaceOracle.conflictWinner wz wt) L s d z now =
        insertVisit
          (closeVisit (ensureMasterData (winnerCommit L s d wz wt) s d z now)
            s L.nextId now) s d z now := by
      unfold runNorm
      rw [hproc]
    refine ⟨hproc, ?_, ?_⟩
    · rw [hrun, openVisitsFor_insertVisit_self,
        openVisitsFor_closeVisit_exact _ s d _ now h3]
      rfl
    · refine ⟨{ id := L.nextId, siteId := s, deviceId := d, zoneId := wz,
                startTime := wt, endTime := some now }, ?_, rfl, rfl, rfl, rfl⟩
      rw [hrun]
      simp only [insertVisit, closeVisit]
      apply List.mem_append_left
      refine List.mem_map.2 ⟨_, hwvmem.1, ?_⟩
      rw [if_pos ⟨rfl, rfl⟩]
  · have hphantom : processNormalized RaceOracle.conflictPhantom L s d z now =
        .error .uniqueViolation := by
      simp only [processNormalized]
      split
      · rename_i w heq
        rw [openVisitsFor_ensureMasterData, h] at heq
        simp [latestOpen] at heq
      · rfl
    refine ⟨hphantom, ?_⟩
    unfold runNorm
    rw [hphantom]

/-- Concrete instance of C3: with no open visit and a lost race against a winner
in the same zone, the retry converges to a no-op and the winner's visit is the
single open visit. -/
theorem creation_race_retry_witness :
    openVisitsFor (runNorm (RaceOracle.conflictWinner "A" 5)
      { devices := [], zones := [], visits := [], nextId := 0 }
      "s1" "d1" "A" 10) "s1" "d1" =
      [{ id := 0, siteId := "s1", deviceId := "d1", zoneId := "A",
         startTime := 5, endTime := none }] :=
  ((creation_race_retry
    { devices := [], zones := [], visits := [], nextId := 0 }
    "s1" "d1" "A" "A" 5 10 (by decide)).1 rfl).2.1

/-- C6: an event whose device already has an open Visit in the same zone creates
no Visit row and changes no Visit's startTime or endTime — in a state where the
device and zone rows exist (as they do in every state the pipeline produces),
the committed ledger is identical except that the device row's lastSeen is set
to the event's processing time. -/
theorem same_zone_noop (o : RaceOracle) (L : Ledger) (s d z : String) (now : Int)
    (v : Visit) (hv : openVisitsFor L s d = [v]) (hz : v.zoneId = z)
    (hdev : L.devices.any (fun x => decide (x.siteId = s ∧ x.deviceId = d)) = true)
    (hzone : L.zones.any (fun x => decide (x.siteId = s ∧ x.zoneId = z)) = true) :
    processNormalized o L s d z now =
      .ok { devices := L.devices.map (fun x =>
              if x.siteId = s ∧ x.deviceId = d then { x with lastSeen := now } else x),
            zones := L.zones, visits := L.visits, nextId := L.nextId }
    ∧ ∀ x ∈ (runNorm o L s d z now).devices,
        x.siteId = s → x.deviceId = d → x.lastSeen = now := by
  have hens : ensureMasterData L s d z now =
      { devices := L.devices.map (fun x =>
          if x.siteId = s ∧ x.deviceId = d then { x with lastSeen := now } else x),
        zones := L.zones, visits := L.visits, nextId := L.nextId } := by
    unfold ensureMasterData upsertDevice upsertZone
    simp only [hdev, if_true, hzone]
  have hlat : latestOpen (openVisitsFor (ensureMasterData L s d z now) s d) = some v := by
    rw [openVisitsFor_ensureMasterData, hv, latestOpen_singleton]
  have hdd : (L.devices.map (fun x =>
        if x.siteId = s ∧ x.deviceId = d then { x with lastSeen := now } else x)).map
        (fun x => if x.siteId = s ∧ x.deviceId = d then { x with lastSeen := now } else x)
      = L.devices.map (fun x =>
          if x.siteId = s ∧ x.deviceId = d then { x with lastSeen := now } else x) := by
    rw [List.map_map]
    apply List.map_congr_left
    intro a _
    simp only [Function.comp_apply]
    by_cases hc : a.siteId = s ∧ a.deviceId = d
    · simp [hc]
    · simp [hc]
  have hproc : processNormalized o L s d z now =
      .ok { devices := L.devices.map (fun x =>
              if x.siteId = s ∧ x.deviceId = d then { x with lastSeen := now } else x),
            zones := L.zones, visits := L.visits, nextId := L.nextId } := by
    simp only [processNormalized]
    split
    · rename_i w heq
      rw [hlat] at heq
      cases heq
      unfold sameOrChange
      rw [if_pos hz, hens]
      unfold updateLastSeen
      simp only [hdd]
    · rename_i heq
      rw [hlat] at heq
      cases heq
  refine ⟨hproc, ?_⟩
  have hrun : runNorm o L s d z now =
      { devices := L.devices.map (fun x =>
          if x.siteId = s ∧ x.deviceId = d then { x with lastSeen := now } else x),
        zones := L.zones, visits := L.visits, nextId := L.nextId } := by
    unfold runNorm
    rw [hproc]
  rw [hrun]
  intro x hx hxs hxd
  rcases List.mem_map.1 hx with ⟨a, _, rfl⟩
  by_cases hc : a.siteId = s ∧ a.deviceId = d
  · rw [if_pos hc]
  · rw [if_neg hc] at hxs hxd ⊢
    exact absurd ⟨hxs, hxd⟩ hc

/-- Concrete instance of C6: a repeated same-zone event leaves visits and zones
untouched and only refreshes the device's lastSeen. -/
theorem same_zone_noop_witness :
    processNormalized RaceOracle.noConflict
      { devices := [{ siteId := "s1", deviceId := "d1", deviceName := "d1",
                      lastSeen := 0 }],
        zones := [{ siteId := "s1", zoneId := "A", zoneName := "A" }],
        visits := [{ id := 0, siteId := "s1", deviceId := "d1", zoneId := "A",
                     startTime := 0, endTime := none }], nextId := 1 }
      "s1" "d1" "A" 10 =
      .ok { devices := [{ siteId := "s1", deviceId := "d1", deviceName := "d1",
                          lastSeen := 10 }],
            zones := [{ siteId := "s1", zoneId := "A", zoneName := "A" }],
            visits := [{ id := 0, siteId := "s1", deviceId := "d1", zoneId := "A",
                         startTime := 0, endTime := none }], nextId := 1 } := by
  have h := (same_zone_noop RaceOracle.noConflict
    { devices := [{ siteId := "s1", deviceId := "d1", deviceName := "d1",
                    lastSeen := 0 }],
      zones := [{ siteId := "s1", zoneId := "A", zoneName := "A" }],
      visits := [{ id := 0, siteId := "s1", deviceId := "d1", zoneId := "A",
                   startTime := 0, endTime := none }], nextId := 1 }
    "s1" "d1" "A" 10
    { id := 0, siteId := "s1", deviceId := "d1", zoneId := "A",
      startTime := 0, endTime := none }
    (by decide) (by decide) (by decide) (by decide)).1
  rw [h]
  rfl

/-- C4: the query-time occupancy evaluation of a visit against the owning
device's lastSeen and the configured staleness threshold (in minutes): a fresh
open visit is active with absent effectiveEnd and duration; a stale open visit
is inactive with effectiveEnd = lastSeen and duration max(0, lastSeen −
startTime); a closed visit is inactive with effectiveEnd = endTime and duration
max(0, endTime − startTime). -/
theorem occupancy_eval (thMin : Nat) (now ls : Int) (zn : String) (v : Visit) :
    (v.endTime = none → now - ls ≤ 60 * (thMin : Int) →
      (evalVisit (now - 60 * (thMin : Int)) (some ls) zn v).isActive = true
      ∧ (evalVisit (now - 60 * (thMin : Int)) (some ls) zn v).effectiveEnd = none
      ∧ (evalVisit (now - 60 * (thMin : Int)) (some ls) zn v).durationSeconds = none)
    ∧ (v.endTime = none → 60 * (thMin : Int) < now - ls →
      (evalVisit (now - 60 * (thMin : Int)) (some ls) zn v).isActive = false
      ∧ (evalVisit (now - 60 * (thMin : Int)) (some ls) zn v).effectiveEnd = some ls
      ∧ (evalVisit (now - 60 * (thMin : Int)) (some ls) zn v).durationSeconds =
          some (max 0 (ls - v.startTime)))
    ∧ (∀ e : Int, v.endTime = some e →
      (evalVisit (now - 60 * (thMin : Int)) (some ls) zn v).isActive = false
      ∧ (evalVisit (now - 60 * (thMin : Int)) (some ls) zn v).effectiveEnd = some e
      ∧ (evalVisit (now - 60 * (thMin : Int)) (some ls) zn v).durationSeconds =
          some (max 0 (e - v.startTime))) := by
  refine ⟨?_, ?_, ?_⟩
  · intro h1 h2
    have hcond : now - 60 * (thMin : Int) ≤ ls := by omega
    simp [evalVisit, h1, hcond]
  · intro h1 h2
    have hcond : ¬(now - 60 * (thMin : Int) ≤ ls) := by omega
    simp [evalVisit, h1, hcond]
  · intro e h1
    simp [evalVisit, h1]

/-- Concrete instance of C4, the spec's worked example with T0 = 0 (seconds):
startTime = T0, lastSeen = T0+5min, threshold = 30min, now = T0+40min, open
visit: inactive, effectiveEnd = T0+5min, durationSeconds = 300. -/
theorem occupancy_eval_witness :
    (evalVisit (2400 - 60 * ((30 : Nat) : Int)) (some 300) "zoneA"
      { id := 0, siteId := "s1", deviceId := "d1", zoneId := "A",
        startTime := 0, endTime := none }).isActive = false
    ∧ (evalVisit (2400 - 60 * ((30 : Nat) : Int)) (some 300) "zoneA"
      { id := 0, siteId := "s1", deviceId := "d1", zoneId := "A",
        startTime := 0, endTime := none }).effectiveEnd = some 300
    ∧ (evalVisit (2400 - 60 * ((30 : Nat) : Int)) (some 300) "zoneA"
      { id := 0, siteId := "s1", deviceId := "d1", zoneId := "A",
        startTime := 0, endTime := none }).durationSeconds = some 300 := by
  have h := (occupancy_eval 30 2400 300 "zoneA"
    { id := 0, siteId := "s1", deviceId := "d1", zoneId := "A",
      startTime := 0, endTime := none }).2.1 rfl (by decide)
  exact ⟨h.1, h.2.1, by rw [h.2.2]; decide⟩

/-! ## Normalization helper facts -/

theorem pyOr_of_truthy {a : Option String} (h : truthy a = true) (b : Option String) :
    pyOr a b = a := by
  cases a with
  | none => simp [truthy] at h
  | some x =>
    simp only [truthy, decide_eq_true_eq] at h
    simp [pyOr, h]

theorem pyOr_of_falsy {a : Option String} (h : truthy a = false) (b : Option String) :
    pyOr a b = b := by
  cases a with
  | none => rfl
  | some x =>
    simp only [truthy, decide_eq_false_iff_not, not_not] at h
    simp [pyOr, h]

theorem pyOrDefault_of_truthy {a : Option String} (h : truthy a = true) (b : String) :
    some (pyOrDefault a b) = a := by
  cases a with
  | none => simp [truthy] at h
  | some x =>
    simp only [truthy, decide_eq_true_eq] at h
    simp [pyOrDefault, h]

theorem pyOrDefault_of_falsy {a : Option String} (h : truthy a = false) (b : String) :
    pyOrDefault a b = b := by
  cases a with
  | none => rfl
  | some x =>
    simp only [truthy, decide_eq_false_iff_not, not_not] at h
    simp [pyOrDefault, h]

theorem truthy_getD {a : Option String} (h : truthy a = true) :
    a = some (a.getD "") := by
  cases a with
  | none => simp [truthy] at h
  | some x => rfl

theorem getD_ne_of_truthy {a : Option String} (h : truthy a = true) :
    a.getD "" ≠ "" := by
  cases a with
  | none => simp [truthy] at h
  | some x => simpa [truthy] using h

/-- C5: normalization produces (siteId, deviceId, zoneId) with siteId falling
back from payload to the routing-key value to the configured default, deviceId
falling back from payload to the routing-key value, and zoneId from the payload
only; it fails with a MalformedEvent error exactly when, after fallback, the
device or zone is still absent (falsy); and a malformed event causes no Device,
Zone or Visit mutation — the ledger is returned unchanged. -/
theorem normalize_contract (dflt : String) (p : Payload) (topic : String)
    (o : RaceOracle) (L : Ledger) (now : Int) :
    (normalize_event dflt p topic = .error .malformed ↔
      truthy (pyOr (pyOr p.deviceId p.device_id) (parse_topic_site_device topic).2)
          = false
      ∨ truthy (pyOr p.zoneId p.zone_id) = false)
    ∧ (∀ s d z, normalize_event dflt p topic = .ok (s, d, z) →
        (truthy (pyOr p.siteId p.site_id) = true →
          pyOr p.siteId p.site_id = some s)
        ∧ (truthy (pyOr p.siteId p.site_id) = false →
            truthy (parse_topic_site_device topic).1 = true →
            (parse_topic_site_device topic).1 = some s)
        ∧ (truthy (pyOr p.siteId p.site_id) = false →
            truthy (parse_topic_site_device topic).1 = false → s = dflt)
        ∧ (truthy (pyOr p.deviceId p.device_id) = true →
            pyOr p.deviceId p.device_id = some d)
        ∧ (truthy (pyOr p.deviceId p.device_id) = false →
            (parse_topic_site_device topic).2 = some d)
        ∧ pyOr p.zoneId p.zone_id = some z)
    ∧ (∀ e, normalize_event dflt p topic = .error e →
        run_event dflt o L p topic now = L) := by
  refine ⟨?_, ?_, ?_⟩
  · cases hd : truthy (pyOr (pyOr p.deviceId p.device_id)
        (parse_topic_site_device topic).2) <;>
      cases hz : truthy (pyOr p.zoneId p.zone_id) <;>
      simp [normalize_event, hd, hz]
  · intro s d z hok
    cases hd : truthy (pyOr (pyOr p.deviceId p.device_id)
        (parse_topic_site_device topic).2) with
    | false => simp [normalize_event, hd] at hok
    | true =>
      cases hz : truthy (pyOr p.zoneId p.zone_id) with
      | false => simp [normalize_event, hd, hz] at hok
      | true =>
        simp only [normalize_event, hd, hz, Bool.and_self, if_true,
          Except.ok.injEq, Prod.mk.injEq] at hok
        obtain ⟨hs, hd2, hz2⟩ := hok
        refine ⟨?_, ?_, ?_, ?_, ?_, ?_⟩
        · intro hst
          rw [pyOr_of_truthy hst] at hs
          rw [← hs]
          exact (pyOrDefault_of_truthy hst dflt).symm
        · intro hsf htt
          rw [pyOr_of_falsy hsf] at hs
          rw [← hs]
          exact (pyOrDefault_of_truthy htt dflt).symm
        · intro hsf htf
          rw [pyOr_of_falsy hsf, pyOrDefault_of_falsy htf] at hs
          exact hs.symm
        · intro hdt
          rw [pyOr_of_truthy hdt] at hd hd2
          rw [← hd2]
          exact truthy_getD hdt
        · intro hdf
          rw [pyOr_of_falsy hdf] at hd hd2
          rw [← hd2]
          exact truthy_getD hd
        · rw [← hz2]
          exact truthy_getD hz
  · intro e h
    unfold run_event process_event
    rw [h]

/-- Concrete instance of C5: the spec's malformed event (no parseable
identifiers, topic `x/y`) leaves the ledger untouched. -/
theorem normalize_contract_witness :
    run_event "site-001" RaceOracle.noConflict
      { devices := [], zones := [], visits := [], nextId := 0 }
      { deviceId := none, device_id := none, zoneId := none, zone_id := none,
        siteId := none, site_id := none } "x/y" 0 =
      { devices := [], zones := [], visits := [], nextId := 0 } :=
  (normalize_contract "site-001"
    { deviceId := none, device_id := none, zoneId := none, zone_id := none,
      siteId := none, site_id := none } "x/y"
    RaceOracle.noConflict
    { devices := [], zones := [], visits := [], nextId := 0 } 0).2.2
    ProcError.malformed (by rfl)

/-- C10: the normalizer treats an empty-string identifier exactly like an
absent one — an empty payload deviceId or siteId falls through to the next
fallback source, an event whose zone (or device, after all fallbacks) resolves
to the empty string is rejected as malformed, and no accepted event carries an
empty device or zone identifier. -/
theorem empty_identifier_handling (dflt : String) :
    (∀ (b c d2 e f : Option String) (topic : String),
        normalize_event dflt
          { deviceId := some "", device_id := b, zoneId := c, zone_id := d2,
            siteId := e, site_id := f } topic =
        normalize_event dflt
          { deviceId := none, device_id := b, zoneId := c, zone_id := d2,
            siteId := e, site_id := f } topic)
    ∧ (∀ (a b c d2 f : Option String) (topic : String),
        normalize_event dflt
          { deviceId := a, device_id := b, zoneId := c, zone_id := d2,
            siteId := some "", site_id := f } topic =
        normalize_event dflt
          { deviceId := a, device_id := b, zoneId := c, zone_id := d2,
            siteId := none, site_id := f } topic)
    ∧ (∀ (p : Payload) (topic : String), pyOr p.zoneId p.zone_id = some "" →
        normalize_event dflt p topic = .error .malformed)
    ∧ (∀ (p : Payload) (topic : String),
        pyOr (pyOr p.deviceId p.device_id) (parse_topic_site_device topic).2
            = some "" →
        normalize_event dflt p topic = .error .malformed)
    ∧ (∀ (p : Payload) (topic : String) (s d z : String),
        normalize_event dflt p topic = .ok (s, d, z) → d ≠ "" ∧ z ≠ "") := by
  refine ⟨?_, ?_, ?_, ?_, ?_⟩
  · intro b c d2 e f topic
    simp [normalize_event, pyOr]
  · intro a b c d2 f topic
    simp [normalize_event, pyOr]
  · intro p topic h
    have hz : truthy (pyOr p.zoneId p.zone_id) = false := by rw [h]; rfl
    simp [normalize_event, hz]
  · intro p topic h
    have hd : truthy (pyOr (pyOr p.deviceId p.device_id)
        (parse_topic_site_device topic).2) = false := by rw [h]; rfl
    simp [normalize_event, hd]
  · intro p topic s d z hok
    cases hd : truthy (pyOr (pyOr p.deviceId p.device_id)
        (parse_topic_site_device topic).2) with
    | false => simp [normalize_event, hd] at hok
    | true =>
      cases hz : truthy (pyOr p.zoneId p.zone_id) with
      | false => simp [normalize_event, hd, hz] at hok
      | true =>
        simp only [normalize_event, hd, hz, Bool.and_self, if_true,
          Except.ok.injEq, Prod.mk.injEq] at hok
        obtain ⟨-, hd2, hz2⟩ := hok
        rw [← hd2, ← hz2]
        exact ⟨getD_ne_of_truthy hd, getD_ne_of_truthy hz⟩

/-- Concrete instance of C10: a payload whose zone resolves to the empty string
is rejected as malformed. -/
theorem empty_identifier_handling_witness :
    normalize_event "site-001"
      { deviceId := some "dev", device_id := none, zoneId := none,
        zone_id := some "", siteId := none, site_id := none }
      "site/a/device/b/location" = .error .malformed :=
  (empty_identifier_handling "site-001").2.2.1
    { deviceId := some "dev", device_id := none, zoneId := none,
      zone_id := some "", siteId := none, site_id := none }
    "site/a/device/b/location" rfl

/-! ## The metrics aggregations -/

theorem mvQualifies_site {s : String} {now : Int} {hours : Nat} {v : Visit}
    (h : mvQualifies s now hours v = true) : v.siteId = s := by
  unfold mvQualifies at h
  exact (of_decide_eq_true h).1

theorem mvVisits_eq (L : Ledger) (s : String) (now : Int) (hours : Nat)
    (hz : ∀ v ∈ L.visits, v.siteId = s → (findZone L s v.zoneId).isSome = true) :
    mvVisits L s now hours = L.visits.filter (mvQualifies s now hours) := by
  unfold mvVisits
  apply List.filter_congr
  intro v hv
  cases hq : mvQualifies s now hours v with
  | false => simp
  | true => simp [hz v hv (mvQualifies_site hq)]

/-- C7: a most-visited row exists per zone having a qualifying visit, its total
is the sum of the duration column over exactly the site's Visits whose startTime
lies inside the trailing window and whose endTime is present (open visits are
excluded by the filter itself), and the rows are sorted descending by total.
Stated for ledgers in which every visit's zone has a zone row, as ingestion
guarantees (the query's inner join would drop visits of unknown zones). -/
theorem dwell_totals (L : Ledger) (s : String) (now : Int) (hours : Nat)
    (r : List MVRow)
    (hz : ∀ v ∈ L.visits, v.siteId = s → (findZone L s v.zoneId).isSome = true)
    (hok : most_visited L s now hours = .ok r) :
    (∀ row ∈ r, row.totalSeconds =
        ((L.visits.filter (fun v =>
            mvQualifies s now hours v && decide (v.zoneId = row.zoneId))).map
          durationSecs).sum)
    ∧ r.Pairwise (fun a b => b.totalSeconds ≤ a.totalSeconds)
    ∧ ∀ z : String,
        (∃ v ∈ L.visits, mvQualifies s now hours v = true ∧ v.zoneId = z) ↔
        ∃ row ∈ r, row.zoneId = z := by
  have hr : r = sortDescBy (fun q => q.totalSeconds)
      ((mvZones L s now hours).map (fun z =>
        { zoneId := z, zoneName := zoneNameOf L s z,
          totalSeconds := mvTotal L s now hours z })) := by
    unfold most_visited at hok
    split at hok
    · cases hok
    · cases hok
      rfl
  refine ⟨?_, ?_, ?_⟩
  · intro row hrow
    rw [hr] at hrow
    rcases List.mem_map.1 ((sortDescBy_perm _ _).mem_iff.1 hrow) with ⟨z, hzmem, rfl⟩
    show mvTotal L s now hours z =
      ((L.visits.filter (fun v =>
          mvQualifies s now hours v && decide (v.zoneId = z))).map durationSecs).sum
    unfold mvTotal
    rw [mvVisits_eq L s now hours hz, List.filter_filter]
    have hcomm : L.visits.filter (fun v =>
          decide (v.zoneId = z) && mvQualifies s now hours v)
        = L.visits.filter (fun v =>
          mvQualifies s now hours v && decide (v.zoneId = z)) := by
      apply List.filter_congr
      intro x _
      exact Bool.and_comm _ _
    rw [hcomm]
  · rw [hr]
    exact sorted_sortDescBy (fun q : MVRow => q.totalSeconds) _
  · intro z
    constructor
    · rintro ⟨v, hvL, hq, hvz⟩
      have hvmem : v ∈ mvVisits L s now hours := by
        rw [mvVisits_eq L s now hours hz]
        exact List.mem_filter.2 ⟨hvL, hq⟩
      have hzz : z ∈ mvZones L s now hours := by
        unfold mvZones
        rw [List.mem_dedup]
        exact List.mem_map.2 ⟨v, hvmem, hvz⟩
      refine ⟨{ zoneId := z, zoneName := zoneNameOf L s z,
                totalSeconds := mvTotal L s now hours z }, ?_, rfl⟩
      rw [hr]
      exact (sortDescBy_perm _ _).mem_iff.2 (List.mem_map.2 ⟨z, hzz, rfl⟩)
    · rintro ⟨row, hrow, hrz⟩
      rw [hr] at hrow
      rcases List.mem_map.1 ((sortDescBy_perm _ _).mem_iff.1 hrow) with ⟨z2, hz2, rfl⟩
      have hz3 : z2 ∈ mvZones L s now hours := hz2
      unfold mvZones at hz3
      rcases List.mem_map.1 (List.mem_dedup.1 hz3) with ⟨v, hvm, hvz⟩
      rw [mvVisits_eq L s now hours hz] at hvm
      have hvm2 := List.mem_filter.1 hvm
      exact ⟨v, hvm2.1, hvm2.2, hvz.trans hrz⟩

/-- Concrete instance of C7: two closed visits and one open visit give
per-zone totals over the closed visits only, sorted descending. -/
theorem dwell_totals_witness :
    List.Pairwise (fun a b : MVRow => b.totalSeconds ≤ a.totalSeconds)
      [{ zoneId := "A", zoneName := "A", totalSeconds := 10 },
       { zoneId := "B", zoneName := "B", totalSeconds := 10 }] :=
  (dwell_totals
    { devices := [],
      zones := [{ siteId := "s1", zoneId := "A", zoneName := "A" },
                { siteId := "s1", zoneId := "B", zoneName := "B" }],
      visits := [{ id := 0, siteId := "s1", deviceId := "d1", zoneId := "A",
                   startTime := 0, endTime := some 10 },
                 { id := 1, siteId := "s1", deviceId := "d1", zoneId := "B",
                   startTime := 10, endTime := some 20 },
                 { id := 2, siteId := "s1", deviceId := "d1", zoneId := "A",
                   startTime := 20, endTime := none }], nextId := 3 }
    "s1" 1000 24
    [{ zoneId := "A", zoneName := "A", totalSeconds := 10 },
     { zoneId := "B", zoneName := "B", totalSeconds := 10 }]
    (by decide) (by rfl)).2.1

/-- C8 counterexample: the transitions query is not scoped by a trailing time
window — it takes no window parameter at all.  On a ledger whose only
transition comes from visits at times 0 and 10, the query still returns that
transition, while the spec-worded windowed query with a one-hour trailing
window evaluated at now = 1000000 returns no rows. -/
theorem transitions_window_counterexample :
    transitions windowCexLedger "s1" 50 ≠
      transitionsWindowedSpec windowCexLedger "s1" 50 (some 3600) 1000000 := by
  have h1 : transitions windowCexLedger "s1" 50 =
      .ok [{ currentZone := "A", nextZone := "B", frequency := 1 }] := by rfl
  have h2 : transitionsWindowedSpec windowCexLedger "s1" 50 (some 3600) 1000000 =
      .ok [] := by rfl
  intro h
  rw [h1, h2] at h
  simp at h

/-- C8 (amended): the transition-frequencies query, scoped by site only (it
takes no time-window parameter), orders each device's Visits by startTime,
forms consecutive (currentZone, nextZone) pairs, counts occurrences of each
ordered pair across all the site's devices, returns rows sorted descending by
frequency capped at the caller-supplied limit, and rejects a limit outside
[1, 500] as a validation error.  The result is sound and complete: it has
exactly min(limit, number of distinct pairs) rows, every returned row is a
formed pair with its exact occurrence count, and — whenever the limit admits
all distinct pairs — every formed ordered pair is returned with its exact
occurrence count. -/
theorem transitions_site_scoped (L : Ledger) (s : String) (limit : Nat) :
    (limit = 0 ∨ 500 < limit → transitions L s limit = .error .badRange)
    ∧ ∀ r, transitions L s limit = .ok r →
        r.length = min limit (transPairs L s).dedup.length
        ∧ r.Pairwise (fun a b => b.frequency ≤ a.frequency)
        ∧ (∀ row ∈ r, (row.currentZone, row.nextZone) ∈ transPairs L s
            ∧ row.frequency = (transPairs L s).count (row.currentZone, row.nextZone))
        ∧ ∀ q ∈ transPairs L s, (transPairs L s).dedup.length ≤ limit →
            ∃ row ∈ r, row.currentZone = q.1 ∧ row.nextZone = q.2
              ∧ row.frequency = (transPairs L s).count q := by
  constructor
  · intro hbad
    unfold transitions
    rw [if_pos hbad]
  · intro r hok
    have hr : r = (sortDescBy (fun q => (q.frequency : Int))
        ((transPairs L s).dedup.map (fun q =>
          { currentZone := q.1, nextZone := q.2,
            frequency := (transPairs L s).count q }))).take limit := by
      unfold transitions at hok
      split at hok
      · cases hok
      · cases hok
        rfl
    refine ⟨?_, ?_, ?_, ?_⟩
    · rw [hr, List.length_take, (sortDescBy_perm _ _).length_eq, List.length_map]
    · rw [hr]
      have hp := sorted_sortDescBy (fun q : TRow => (q.frequency : Int))
        ((transPairs L s).dedup.map (fun q =>
          { currentZone := q.1, nextZone := q.2,
            frequency := (transPairs L s).count q }))
      have hp2 := hp.imp (fun {a b} hab => by exact_mod_cast hab :
        ∀ {a b : TRow}, ((b.frequency : Int) ≤ (a.frequency : Int)) →
          b.frequency ≤ a.frequency)
      exact hp2.sublist (List.take_sublist _ _)
    · intro row hrow
      rw [hr] at hrow
      have hrow2 := List.take_subset _ _ hrow
      rcases List.mem_map.1 ((sortDescBy_perm _ _).mem_iff.1 hrow2) with ⟨q, hq, rfl⟩
      have hq2 : q ∈ transPairs L s := List.dedup_subset _ hq
      constructor
      · show (q.1, q.2) ∈ transPairs L s
        simpa using hq2
      · show (transPairs L s).count q = (transPairs L s).count (q.1, q.2)
        simp
    · intro q hq hlim
      have hfull : (sortDescBy (fun q2 : TRow => (q2.frequency : Int))
          ((transPairs L s).dedup.map (fun q2 =>
            { currentZone := q2.1, nextZone := q2.2,
              frequency := (transPairs L s).count q2 }))).take limit =
          sortDescBy (fun q2 : TRow => (q2.frequency : Int))
            ((transPairs L s).dedup.map (fun q2 =>
              { currentZone := q2.1, nextZone := q2.2,
                frequency := (transPairs L s).count q2 })) := by
        apply List.take_of_length_le
        rw [(sortDescBy_perm _ _).length_eq, List.length_map]
        exact hlim
      rw [hr, hfull]
      refine ⟨{ currentZone := q.1, nextZone := q.2,
                frequency := (transPairs L s).count q },
        (sortDescBy_perm _ _).mem_iff.2 (List.mem_map.2 ⟨q, List.mem_dedup.2 hq, rfl⟩),
        rfl, rfl, rfl⟩

/-- Concrete instance of the amended C8, the spec's A→B→A example: the visit
sequence A, B, A forms the pairs (A,B) and (B,A) once each — never (A,A) —
and the query returns each pair with its count; a limit of 501 is rejected
as a validation error. -/
theorem transitions_site_scoped_witness :
    (∃ row ∈ [({ currentZone := "A", nextZone := "B", frequency := 1 } : TRow),
              { currentZone := "B", nextZone := "A", frequency := 1 }],
      row.currentZone = "A" ∧ row.nextZone = "B" ∧ row.frequency = 1)
    ∧ transitions { devices := [], zones := [], visits := [], nextId := 0 }
        "s1" 501 = .error .badRange :=
  ⟨((transitions_site_scoped
      { devices := [], zones := [],
        visits := [{ id := 0, siteId := "s1", deviceId := "d1", zoneId := "A",
                     startTime := 0, endTime := some 10 },
                   { id := 1, siteId := "s1", deviceId := "d1", zoneId := "B",
                     startTime := 10, endTime := some 20 },
                   { id := 2, siteId := "s1", deviceId := "d1", zoneId := "A",
                     startTime := 20, endTime := none }], nextId := 3 }
      "s1" 50).2
      [{ currentZone := "A", nextZone := "B", frequency := 1 },
       { currentZone := "B", nextZone := "A", frequency := 1 }]
      (by rfl)).2.2.2 ("A", "B") (by decide) (by decide),
   (transitions_site_scoped
      { devices := [], zones := [], visits := [], nextId := 0 } "s1" 501).1
      (by decide)⟩

/-- C9: occupancy evaluation is a pure read-only projection — the device
history endpoint returns the ledger it was given unchanged, and every item it
reports as open (in particular a stale open visit, whose effectiveEnd is only
a query-time interpretation) corresponds to a ledger Visit whose endTime is
still absent. -/
theorem read_only_projection (staleMin : Nat) (L : Ledger) (s d : String)
    (limit : Nat) (now : Int) :
    (device_history staleMin L s d limit now).2 = L
    ∧ ∀ out, (device_history staleMin L s d limit now).1 = .ok out →
        ∀ it ∈ out.items, it.isOpen = true →
          ∃ v ∈ L.visits, v.id = it.id ∧ v.endTime = none := by
  constructor
  · unfold device_history
    split
    · rfl
    · split
      · rfl
      · rfl
  · intro out hout it hit hopen
    unfold device_history at hout
    split at hout
    · simp at hout
    · split at hout
      · simp at hout
      · rename_i dev hdev
        simp only [Except.ok.injEq] at hout
        rw [← hout] at hit
        rcases List.mem_filterMap.1 hit with ⟨v, hv, hmap⟩
        rcases Option.map_eq_some'.1 hmap with ⟨zr, hfz, hev⟩
        have hvL : v ∈ L.visits := by
          unfold deviceVisitRows at hv
          have hv2 := List.take_subset _ _ hv
          have hv3 := (sortDescBy_perm _ _).mem_iff.1 hv2
          exact (List.mem_filter.1 hv3).1
        have hopen2 : v.endTime = none := by
          rw [← hev] at hopen
          have : v.endTime.isNone = true := hopen
          exact Option.isNone_iff_eq_none.1 this
        exact ⟨v, hvL, by rw [← hev]; rfl, hopen2⟩

/-- Concrete instance of C9: the history of a stale open visit reports the item
as open (inactive, effectiveEnd = lastSeen) while the ledger Visit's endTime is
still absent. -/
theorem read_only_projection_witness :
    ∃ v ∈ ({ devices := [{ siteId := "s1", deviceId := "d1", deviceName := "d1",
                           lastSeen := 20 }],
             zones := [{ siteId := "s1", zoneId := "A", zoneName := "A" }],
             visits := [{ id := 0, siteId := "s1", deviceId := "d1", zoneId := "A",
                          startTime := 0, endTime := none }],
             nextId := 1 } : Ledger).visits,
      v.id = 0 ∧ v.endTime = none :=
  (read_only_projection 30
    { devices := [{ siteId := "s1", deviceId := "d1", deviceName := "d1",
                    lastSeen := 20 }],
      zones := [{ siteId := "s1", zoneId := "A", zoneName := "A" }],
      visits := [{ id := 0, siteId := "s1", deviceId := "d1", zoneId := "A",
                   startTime := 0, endTime := none }], nextId := 1 }
    "s1" "d1" 200 2400).2
    { device := { deviceId := "d1", deviceName := "d1", lastSeen := 20,
                  staleThresholdMinutes := 30 },
      items := [{ id := 0, zoneId := "A", zoneName := "A", startTime := 0,
                  endTime := none, effectiveEnd := some 20,
                  durationSeconds := some 20, isOpen := true,
                  isActive := false }] }
    (by rfl)
    { id := 0, zoneId := "A", zoneName := "A", startTime := 0, endTime := none,
      effectiveEnd := some 20, durationSeconds := some 20, isOpen := true,
      isActive := false }
    (by decide) rfl

end GuidiAlert
